import Mathlib

/-!
Shallow embedding of `src/mod.ts` of deno-kv-plus: optimistic, retryable,
multi-key read-modify-write updates (`setSafeAtomicMany`, `setSafeAtomic`)
on top of a versioned key-value backend (Deno KV).

Modelling conventions:
* JS values are `Option V`: `none` models a nullish JS value, `some v` a
  proper value drawn from the caller type `V`.
* The backend store maps a key to `some (storedValue, versionstamp)` or to
  `none` for an absent key.  Versionstamps are opaque natural numbers; the
  layer under verification never inspects them, it only hands them back to
  the backend check.
* Concurrent writers are modelled by an environment: `envR j` is the store
  state observed by the read of attempt `j` (the `this.getMany` call),
  `envC j` is the store state the commit of attempt `j` is validated
  against, and `fresh j` is the versionstamp the backend assigns to entries
  written by a successful commit on attempt `j`.
* The user callback `updateValues(values, abort)` interacts with the caller
  through three channels: the ordered list of `abort(reason?)` invocations
  it performs, the value it returns (`none` models returning no array, i.e.
  a void return), and the state of the `values` array after the call (the
  callback may mutate the array in place).  A `TransformEffect` records all
  three, so the embedding quantifies over arbitrary, possibly mutating,
  callbacks.
* Thrown JS exceptions are `Except.error` carrying the message.  Besides
  the response, a run records the number of read round-trips, the number of
  commit round-trips, and the store produced by a successful commit
  (`none` when no write was made durable by this call).
-/

namespace DenoKvPlus

variable {K V : Type}

/-- A backend entry as returned by a read (`Deno.KvEntryMaybe`): for an
absent key both `value` and `versionstamp` are `none` (JS `null`); for a
present key, `value` is the stored JS value and `versionstamp` its current
version token. -/
structure KvEntryMaybe (K V : Type) where
  key : K
  value : Option V
  versionstamp : Option Nat
  deriving Repr, DecidableEq

/-- The backend store: each key is either absent (`none`) or holds a stored
JS value together with its current versionstamp. -/
def KvStore (K V : Type) := K → Option (Option V × Nat)

/-- One point read of the backend. -/
def kvGet (store : KvStore K V) (k : K) : KvEntryMaybe K V :=
  match store k with
  | some p => ⟨k, p.1, some p.2⟩
  | none => ⟨k, none, none⟩

/-- Embeds `this.getMany(keys)` (src/mod.ts line 70): one entry per key,
preserving input order. -/
def getMany (store : KvStore K V) (keys : List K) : List (KvEntryMaybe K V) :=
  keys.map (kvGet store)

/-- The versionstamp the backend currently holds for a key (`none` for an
absent key). -/
def versionstampOf (store : KvStore K V) (k : K) : Option Nat :=
  (store k).map (fun p => p.2)

/-- A pending atomic operation (`this.atomic()`): the queued checks (key
and expected versionstamp, taken from the entry handed to `tx.check`) and
the queued sets (key and new value). -/
structure AtomicOperation (K V : Type) where
  checks : List (K × Option Nat)
  sets : List (K × Option V)
  deriving Repr

/-- Embeds `tx.check(entry)`: queue a versionstamp check for the entry. -/
def AtomicOperation.check (tx : AtomicOperation K V) (e : KvEntryMaybe K V) :
    AtomicOperation K V :=
  { tx with checks := tx.checks ++ [(e.key, e.versionstamp)] }

/-- Embeds `tx.set(key, value)`: queue a write. -/
def AtomicOperation.set (tx : AtomicOperation K V) (k : K) (v : Option V) :
    AtomicOperation K V :=
  { tx with sets := tx.sets ++ [(k, v)] }

/-- Embeds `tx.commit()`: atomically, if every queued check matches the current
versionstamp of its key, apply every queued set (each written entry getting
the fresh versionstamp `fresh`) and report `ok = true`; otherwise leave the
store unchanged and report `ok = false`. -/
def AtomicOperation.commit [DecidableEq K] (tx : AtomicOperation K V)
    (store : KvStore K V) (fresh : Nat) : Bool × KvStore K V :=
  if tx.checks.all (fun c => decide (versionstampOf store c.1 = c.2)) then
    (true, tx.sets.foldl (fun s c => fun k => if k = c.1 then some (c.2, fresh) else s k) store)
  else
    (false, store)

/-- The observable effect of one invocation of the user callback
`updateValues(values, abort)` on a given input list of values. -/
structure TransformEffect (V : Type) where
  /-- The arguments of the `abort` invocations the callback performed, in
  call order; `none` is a call with no reason argument. -/
  abortCalls : List (Option String)
  /-- The returned value: `some vs` when the callback returned the array
  `vs`, `none` when it returned no array (void return). -/
  ret : Option (List (Option V))
  /-- The state of the `values` array after the call: the callback may have
  mutated it in place. -/
  finalValues : List (Option V)

/-- A user callback for `setSafeAtomicMany`, as a function from the values
it is called with to its observable effect. -/
def Transform (V : Type) := List (Option V) → TransformEffect V

/-- The final state of the closure variable `abortReason` after a sequence
of `abort(reason?)` calls: each call executes
`if (reason) abortReason = reason`, so a call with no reason, or with the
(falsy) empty-string reason, leaves the previous reason in place. -/
def abortReasonAfter (calls : List (Option String)) : Option String :=
  calls.foldl
    (fun acc r =>
      match r with
      | some s => if s = "" then acc else some s
      | none => acc)
    none

/-- The response shape of `setSafeAtomicMany`. -/
structure SafeAtomicManyResponse (V : Type) where
  ok : Bool
  error : Option String
  values : List (Option V)
  deriving Repr, DecidableEq

/-- What one attempt (one body of `setSafeAtomicMany`, before the retry
decision) can end in. -/
inductive AttemptOut (K V : Type) where
  /-- The callback invoked `abort`: the final abort reason and the clone of
  the values read at the start of the attempt. -/
  | aborted (reason : Option String) (originals : List (Option V))
  /-- A thrown error (the callback returned no array, or an array of the
  wrong length). -/
  | invalidReturn (msg : String)
  /-- The commit succeeded: the committed values and the store after the
  commit. -/
  | committed (newValues : List (Option V)) (newStore : KvStore K V)
  /-- The commit failed a version check: carries the clone of the values
  read at the start of the attempt. -/
  | conflict (originals : List (Option V))

/-- The transaction-building loop of src/mod.ts lines 105 to 110:
`tx = this.atomic()`, then for each index `i`, `tx.check(results[i])` and
`tx.set(results[i].key, updatedValues[i])`.  The fold over the zip is that
indexed loop; the two lists have equal length at the call site. -/
def attemptTx (results : List (KvEntryMaybe K V)) (updatedValues : List (Option V)) :
    AtomicOperation K V :=
  (results.zip updatedValues).foldl
    (fun t p => AtomicOperation.set (AtomicOperation.check t p.1) p.1.key p.2)
    ⟨[], []⟩

/-- One attempt of `setSafeAtomicMany` (src/mod.ts lines 70 to 114): read
all keys from `storeR`, run the callback, and either abort, throw, or build
one atomic transaction of per-key checks and sets and commit it against
`storeC`. -/
def setSafeAtomicAttempt [DecidableEq K] (storeR storeC : KvStore K V) (fresh : Nat)
    (keys : List K) (updateValues : Transform V) : AttemptOut K V :=
  let results := getMany storeR keys
  let resultValues := results.map (fun r => r.value)
  -- line 85: originalResultValues = structuredClone(resultValues); a deep
  -- copy of the values as they stand before the callback runs
  let originalResultValues := resultValues
  let eff := updateValues resultValues
  let aborting := !eff.abortCalls.isEmpty
  if aborting then
    .aborted (abortReasonAfter eff.abortCalls) originalResultValues
  else
    match eff.ret with
    | none => .invalidReturn "updateValues must return an array of values to update"
    | some updatedValues =>
      if updatedValues.length ≠ results.length then
        .invalidReturn "The number of resuts returned from the update callback must match the number of keys"
      else
        let tx := attemptTx results updatedValues
        let c := AtomicOperation.commit tx storeC fresh
        if c.1 then .committed updatedValues c.2
        else .conflict originalResultValues

/-- The result of a full `setSafeAtomicMany` call: the response or the
thrown error, together with the number of read round-trips, the number of
commit round-trips, and the store written by a successful commit (`none`
when the call made nothing durable). -/
structure ManyRunResult (K V : Type) where
  result : Except String (SafeAtomicManyResponse V)
  reads : Nat
  commitAttempts : Nat
  committedStore : Option (KvStore K V)

/-- Embeds `setSafeAtomicMany(keys, updateValues, retryCount)` starting at attempt
index `j`: run one attempt against the environment at `j`; on abort or a
thrown error report at once (no commit was attempted); on a successful
commit report the new values; on a failed commit, report exhaustion when
the budget is zero (src/mod.ts lines 116 to 118) and otherwise retry with
a completely fresh read and a decremented budget (line 120). -/
def setSafeAtomicMany [DecidableEq K] (envR envC : Nat → KvStore K V) (fresh : Nat → Nat)
    (j : Nat) (keys : List K) (updateValues : Transform V) (retryCount : Nat) :
    ManyRunResult K V :=
  match setSafeAtomicAttempt (envR j) (envC j) (fresh j) keys updateValues with
  | .aborted reason originals => ⟨.ok ⟨false, reason, originals⟩, 1, 0, none⟩
  | .invalidReturn msg => ⟨.error msg, 1, 0, none⟩
  | .committed newValues newStore => ⟨.ok ⟨true, none, newValues⟩, 1, 1, some newStore⟩
  | .conflict originals =>
    match retryCount with
    | 0 => ⟨.ok ⟨false, some "Failed to commit transaction", originals⟩, 1, 1, none⟩
    | Nat.succ m =>
      let r := setSafeAtomicMany envR envC fresh (j + 1) keys updateValues m
      ⟨r.result, r.reads + 1, r.commitAttempts + 1, r.committedStore⟩

/-- The default retry budget: the source declares the parameter as
`retryCount: number = 10`, so a call omitting the argument runs with 10. -/
def defaultRetryCount : Nat := 10

/-- A `setSafeAtomicMany` call in which the caller omits the `retryCount`
argument: the declared default fills it in. -/
def setSafeAtomicManyOmittingRetryCount [DecidableEq K] (envR envC : Nat → KvStore K V)
    (fresh : Nat → Nat) (j : Nat) (keys : List K) (updateValues : Transform V) :
    ManyRunResult K V :=
  setSafeAtomicMany envR envC fresh j keys updateValues defaultRetryCount

/-- The observable effect of one invocation of a single-key callback
`updateValue(value, abort)`: its `abort` invocations in call order and the
value it returns (`none` models a nullish return). -/
structure SingleTransformEffect (V : Type) where
  abortCalls : List (Option String)
  ret : Option V

/-- A user callback for `setSafeAtomic`. -/
def SingleTransform (V : Type) := Option V → SingleTransformEffect V

/-- The response shape of `setSafeAtomic`. -/
structure SafeAtomicSingleResponse (V : Type) where
  ok : Bool
  error : Option String
  value : Option V
  deriving Repr, DecidableEq

/-- The result of a full `setSafeAtomic` call, with the same bookkeeping as
`ManyRunResult`. -/
structure SingleRunResult (K V : Type) where
  result : Except String (SafeAtomicSingleResponse V)
  reads : Nat
  commitAttempts : Nat
  committedStore : Option (KvStore K V)

/-- Embeds `setSafeAtomic(key, updateValue, retryCount)` (src/mod.ts lines 123 to
141): delegate to `setSafeAtomicMany` with the one-element batch `[key]`
and the callback `(values, abort) => [updateValue(values[0], abort)]`,
then return `{ ok, error, value: values[0] }`. -/
def setSafeAtomic [DecidableEq K] (envR envC : Nat → KvStore K V) (fresh : Nat → Nat)
    (j : Nat) (key : K) (updateValue : SingleTransform V) (retryCount : Nat) :
    SingleRunResult K V :=
  let r := setSafeAtomicMany envR envC fresh j [key]
    (fun values =>
      let e := updateValue (values.headD none)
      ⟨e.abortCalls, some [e.ret], values⟩)
    retryCount
  ⟨r.result.map (fun resp => ⟨resp.ok, resp.error, resp.values.headD none⟩),
   r.reads, r.commitAttempts, r.committedStore⟩

/-- Modelled from the spec: the wrapped multi-key callback of the
single-key convenience operation — it operates on `values[0]`, calls
`abort` identically, and returns the one-element array of the result. -/
def wrapSingle (updateValue : SingleTransform V) : Transform V :=
  fun values =>
    let e := updateValue (values.headD none)
    ⟨e.abortCalls, some [e.ret], values⟩

/-- Modelled from the spec: the single-key convenience operation defined
purely in terms of the multi-key operation — wrap the one key into a
one-element batch, wrap the transform via `wrapSingle`, and unwrap
`values[0]` from the result, introducing no new logic. -/
def setSafeAtomicViaMany [DecidableEq K] (envR envC : Nat → KvStore K V) (fresh : Nat → Nat)
    (j : Nat) (key : K) (updateValue : SingleTransform V) (retryCount : Nat) :
    SingleRunResult K V :=
  let r := setSafeAtomicMany envR envC fresh j [key] (wrapSingle updateValue) retryCount
  ⟨r.result.map (fun resp => ⟨resp.ok, resp.error, resp.values.headD none⟩),
   r.reads, r.commitAttempts, r.committedStore⟩

/-- A callback that behaves like `tf` but additionally leaves the `values`
array it was passed in the (mutated-in-place) state `m` after the call. -/
def overrideFinalValues (tf : Transform V) (m : List (Option V)) : Transform V :=
  fun values => { tf values with finalValues := m }

/-- The last reason supplied across a sequence of `abort(reason?)` calls
(calls with no reason argument supply none). -/
def lastSuppliedReason (calls : List (Option String)) : Option String :=
  (calls.filterMap id).getLast?

/-- The last truthy (non-empty) reason supplied across a sequence of
`abort(reason?)` calls. -/
def lastTruthyReason (calls : List (Option String)) : Option String :=
  ((calls.filterMap id).filter (fun s => !(s == ""))).getLast?

/-! ### Helper lemmas about the read batch -/

theorem getMany_length (store : KvStore K V) (keys : List K) :
    (getMany store keys).length = keys.length := by
  simp [getMany]

theorem kvGet_key (store : KvStore K V) (k : K) : (kvGet store k).key = k := by
  unfold kvGet
  cases store k <;> rfl

theorem kvGet_versionstamp (store : KvStore K V) (k : K) :
    (kvGet store k).versionstamp = versionstampOf store k := by
  unfold kvGet versionstampOf
  cases store k <;> rfl

theorem getMany_map_key (store : KvStore K V) (keys : List K) :
    (getMany store keys).map (fun e => e.key) = keys := by
  simp [getMany, List.map_map, Function.comp_def, kvGet_key]

/-! ### Helper lemmas about the built transaction and its commit -/

theorem attemptTx_go (pairs : List (KvEntryMaybe K V × Option V)) (tx : AtomicOperation K V) :
    pairs.foldl
      (fun t p => AtomicOperation.set (AtomicOperation.check t p.1) p.1.key p.2) tx =
      ⟨tx.checks ++ pairs.map (fun p => (p.1.key, p.1.versionstamp)),
       tx.sets ++ pairs.map (fun p => (p.1.key, p.2))⟩ := by
  induction pairs generalizing tx with
  | nil => simp
  | cons p ps ih =>
    rw [List.foldl_cons, ih]
    simp [AtomicOperation.check, AtomicOperation.set]

theorem attemptTx_checks (results : List (KvEntryMaybe K V)) (updatedValues : List (Option V))
    (hlen : updatedValues.length = results.length) :
    (attemptTx results updatedValues).checks =
      results.map (fun e => (e.key, e.versionstamp)) := by
  unfold attemptTx
  rw [attemptTx_go]
  have hfst : (results.zip updatedValues).map Prod.fst = results :=
    List.map_fst_zip results updatedValues (le_of_eq hlen.symm)
  calc ([] : List (K × Option Nat)) ++
        (results.zip updatedValues).map (fun p => (p.1.key, p.1.versionstamp))
      = ((results.zip updatedValues).map Prod.fst).map (fun e => (e.key, e.versionstamp)) := by
        simp [List.map_map, Function.comp_def]
    _ = results.map (fun e => (e.key, e.versionstamp)) := by rw [hfst]

theorem attemptTx_sets (results : List (KvEntryMaybe K V)) (updatedValues : List (Option V)) :
    (attemptTx results updatedValues).sets =
      (results.zip updatedValues).map (fun p => (p.1.key, p.2)) := by
  unfold attemptTx
  rw [attemptTx_go]
  simp

theorem commit_eq_of_pass [DecidableEq K] (tx : AtomicOperation K V) (store : KvStore K V)
    (fresh : Nat) (h : ∀ c ∈ tx.checks, versionstampOf store c.1 = c.2) :
    tx.commit store fresh =
      (true, tx.sets.foldl (fun s c => fun k => if k = c.1 then some (c.2, fresh) else s k) store) := by
  have hc : tx.checks.all (fun c => decide (versionstampOf store c.1 = c.2)) = true := by
    simpa [List.all_eq_true] using h
  unfold AtomicOperation.commit
  rw [if_pos hc]
  exact rfl

theorem commit_eq_of_fail [DecidableEq K] (tx : AtomicOperation K V) (store : KvStore K V)
    (fresh : Nat) (h : ¬ ∀ c ∈ tx.checks, versionstampOf store c.1 = c.2) :
    tx.commit store fresh = (false, store) := by
  unfold AtomicOperation.commit
  rw [if_neg]
  simpa [List.all_eq_true] using h

theorem foldl_write_not_mem (l : List (K × Option V)) [DecidableEq K] (s : KvStore K V)
    (fresh : Nat) (k : K) (h : k ∉ l.map Prod.fst) :
    (l.foldl (fun s c => fun k => if k = c.1 then some (c.2, fresh) else s k) s) k = s k := by
  induction l generalizing s with
  | nil => rfl
  | cons c cs ih =>
    simp only [List.map_cons, List.mem_cons, not_or] at h
    simp only [List.foldl_cons]
    rw [ih _ h.2]
    simp [h.1]

theorem foldl_write_mem (l : List (K × Option V)) [DecidableEq K] (s : KvStore K V)
    (fresh : Nat) (k : K) (v : Option V) (hnd : (l.map Prod.fst).Nodup) (h : (k, v) ∈ l) :
    (l.foldl (fun s c => fun k => if k = c.1 then some (c.2, fresh) else s k) s) k
      = some (v, fresh) := by
  induction l generalizing s with
  | nil => cases h
  | cons c cs ih =>
    simp only [List.map_cons, List.nodup_cons] at hnd
    rcases List.mem_cons.mp h with hc | hcs
    · subst hc
      simp only [List.foldl_cons]
      rw [foldl_write_not_mem _ _ _ _ hnd.1]
      simp
    · simp only [List.foldl_cons]
      apply ih
      all_goals first | exact hnd.2 | exact hcs

/-! ### Helper lemmas about the abort reason -/

theorem getLast?_cons_or (a : V) (l : List V) :
    (a :: l).getLast? = l.getLast?.or (some a) := by
  induction l with
  | nil => rfl
  | cons b bs ih =>
    rw [List.getLast?_cons_cons]
    cases hbs : (b :: bs).getLast? with
    | none =>
      exact absurd hbs (by simp [List.getLast?_isSome])
    | some x => rfl

theorem abortReasonAfter_go (calls : List (Option String)) (acc : Option String) :
    calls.foldl
        (fun acc r =>
          match r with
          | some s => if s = "" then acc else some s
          | none => acc)
        acc
      = (lastTruthyReason calls).or acc := by
  induction calls generalizing acc with
  | nil => rfl
  | cons r rs ih =>
    unfold lastTruthyReason at *
    cases r with
    | none => simpa using ih acc
    | some s =>
      by_cases hs : s = ""
      · simp only [List.foldl_cons, hs, List.filterMap_cons, id]
        simpa [hs] using ih acc
      · simp only [List.foldl_cons, List.filterMap_cons, id]
        rw [if_neg hs, ih (some s)]
        rw [List.filter_cons_of_pos (by simpa using hs), getLast?_cons_or]
        cases ((rs.filterMap id).filter (fun s => !(s == ""))).getLast? <;> rfl

theorem abortReasonAfter_eq_lastTruthyReason (calls : List (Option String)) :
    abortReasonAfter calls = lastTruthyReason calls := by
  unfold abortReasonAfter
  rw [abortReasonAfter_go]
  cases lastTruthyReason calls <;> rfl

/-! ### Branch lemmas for one attempt -/

theorem attempt_aborted [DecidableEq K] (storeR storeC : KvStore K V) (fresh : Nat)
    (keys : List K) (tf : Transform V)
    (h : (tf ((getMany storeR keys).map (fun r => r.value))).abortCalls ≠ []) :
    setSafeAtomicAttempt storeR storeC fresh keys tf =
      .aborted (abortReasonAfter (tf ((getMany storeR keys).map (fun r => r.value))).abortCalls)
        ((getMany storeR keys).map (fun r => r.value)) := by
  simp only [setSafeAtomicAttempt]
  rw [if_pos]
  simpa using h

theorem attempt_noArray [DecidableEq K] (storeR storeC : KvStore K V) (fresh : Nat)
    (keys : List K) (tf : Transform V)
    (hab : (tf ((getMany storeR keys).map (fun r => r.value))).abortCalls = [])
    (hret : (tf ((getMany storeR keys).map (fun r => r.value))).ret = none) :
    setSafeAtomicAttempt storeR storeC fresh keys tf =
      .invalidReturn "updateValues must return an array of values to update" := by
  simp only [setSafeAtomicAttempt, hab, hret]
  simp

theorem attempt_wrongLength [DecidableEq K] (storeR storeC : KvStore K V) (fresh : Nat)
    (keys : List K) (tf : Transform V) (updatedValues : List (Option V))
    (hab : (tf ((getMany storeR keys).map (fun r => r.value))).abortCalls = [])
    (hret : (tf ((getMany storeR keys).map (fun r => r.value))).ret = some updatedValues)
    (hlen : updatedValues.length ≠ keys.length) :
    setSafeAtomicAttempt storeR storeC fresh keys tf =
      .invalidReturn "The number of resuts returned from the update callback must match the number of keys" := by
  simp only [setSafeAtomicAttempt, hab, hret]
  simp [getMany_length, hlen]

theorem attempt_reaches_commit [DecidableEq K] (storeR storeC : KvStore K V) (fresh : Nat)
    (keys : List K) (tf : Transform V) (updatedValues : List (Option V))
    (hab : (tf ((getMany storeR keys).map (fun r => r.value))).abortCalls = [])
    (hret : (tf ((getMany storeR keys).map (fun r => r.value))).ret = some updatedValues)
    (hlen : updatedValues.length = keys.length) :
    setSafeAtomicAttempt storeR storeC fresh keys tf =
      if ((attemptTx (getMany storeR keys) updatedValues).commit storeC fresh).1 then
        .committed updatedValues
          ((attemptTx (getMany storeR keys) updatedValues).commit storeC fresh).2
      else
        .conflict ((getMany storeR keys).map (fun r => r.value)) := by
  simp only [setSafeAtomicAttempt, hab, hret]
  simp [getMany_length, hlen]

theorem checks_pass_iff (results : List (KvEntryMaybe K V)) (store : KvStore K V)
    (updatedValues : List (Option V)) (hlen : updatedValues.length = results.length) :
    (∀ c ∈ (attemptTx results updatedValues).checks, versionstampOf store c.1 = c.2)
      ↔ ∀ e ∈ results, versionstampOf store e.key = e.versionstamp := by
  rw [attemptTx_checks _ _ hlen]
  constructor
  · intro h e he
    exact h _ (List.mem_map_of_mem _ he)
  · intro h c hc
    obtain ⟨e, he, rfl⟩ := List.mem_map.mp hc
    exact h e he

theorem attempt_committed [DecidableEq K] (storeR storeC : KvStore K V) (fresh : Nat)
    (keys : List K) (tf : Transform V) (updatedValues : List (Option V))
    (hab : (tf ((getMany storeR keys).map (fun r => r.value))).abortCalls = [])
    (hret : (tf ((getMany storeR keys).map (fun r => r.value))).ret = some updatedValues)
    (hlen : updatedValues.length = keys.length)
    (hpass : ∀ e ∈ getMany storeR keys, versionstampOf storeC e.key = e.versionstamp) :
    setSafeAtomicAttempt storeR storeC fresh keys tf =
      .committed updatedValues
        ((attemptTx (getMany storeR keys) updatedValues).sets.foldl
          (fun s c => fun k => if k = c.1 then some (c.2, fresh) else s k) storeC) := by
  have hlen' : updatedValues.length = (getMany storeR keys).length := by
    rw [getMany_length]; exact hlen
  have hcommit := commit_eq_of_pass (attemptTx (getMany storeR keys) updatedValues) storeC fresh
    ((checks_pass_iff _ _ _ hlen').mpr hpass)
  rw [attempt_reaches_commit storeR storeC fresh keys tf updatedValues hab hret hlen, hcommit]
  simp
  exact rfl

theorem attempt_conflict [DecidableEq K] (storeR storeC : KvStore K V) (fresh : Nat)
    (keys : List K) (tf : Transform V) (updatedValues : List (Option V))
    (hab : (tf ((getMany storeR keys).map (fun r => r.value))).abortCalls = [])
    (hret : (tf ((getMany storeR keys).map (fun r => r.value))).ret = some updatedValues)
    (hlen : updatedValues.length = keys.length)
    (hfail : ¬ ∀ e ∈ getMany storeR keys, versionstampOf storeC e.key = e.versionstamp) :
    setSafeAtomicAttempt storeR storeC fresh keys tf =
      .conflict ((getMany storeR keys).map (fun r => r.value)) := by
  have hlen' : updatedValues.length = (getMany storeR keys).length := by
    rw [getMany_length]; exact hlen
  have hcommit := commit_eq_of_fail (attemptTx (getMany storeR keys) updatedValues) storeC fresh
    (fun hall => hfail ((checks_pass_iff _ _ _ hlen').mp hall))
  rw [attempt_reaches_commit storeR storeC fresh keys tf updatedValues hab hret hlen, hcommit]
  simp

/-! ### One-step unfolding of the retry driver -/

theorem setSafeAtomicMany_unfold [DecidableEq K] (envR envC : Nat → KvStore K V)
    (fresh : Nat → Nat) (j : Nat) (keys : List K) (tf : Transform V) (retryCount : Nat) :
    setSafeAtomicMany envR envC fresh j keys tf retryCount =
      match setSafeAtomicAttempt (envR j) (envC j) (fresh j) keys tf with
      | .aborted reason originals => ⟨.ok ⟨false, reason, originals⟩, 1, 0, none⟩
      | .invalidReturn msg => ⟨.error msg, 1, 0, none⟩
      | .committed newValues newStore => ⟨.ok ⟨true, none, newValues⟩, 1, 1, some newStore⟩
      | .conflict originals =>
        match retryCount with
        | 0 => ⟨.ok ⟨false, some "Failed to commit transaction", originals⟩, 1, 1, none⟩
        | Nat.succ m =>
          let r := setSafeAtomicMany envR envC fresh (j + 1) keys tf m
          ⟨r.result, r.reads + 1, r.commitAttempts + 1, r.committedStore⟩ := by
  conv_lhs => rw [setSafeAtomicMany]

/-! ### Claim theorems -/

/-- C2: whenever the callback invokes `abort` on an attempt, the call
returns `ok = false`, the final abort reason as the error, and the values
read at the start of that attempt; it performs zero commit round-trips and
writes nothing to the backend. -/
theorem setSafeAtomicMany_abort_reports_originals_without_commit [DecidableEq K]
    (envR envC : Nat → KvStore K V) (fresh : Nat → Nat) (j : Nat) (keys : List K)
    (tf : Transform V) (retryCount : Nat)
    (h : (tf ((getMany (envR j) keys).map (fun r => r.value))).abortCalls ≠ []) :
    setSafeAtomicMany envR envC fresh j keys tf retryCount =
      ⟨.ok ⟨false,
        abortReasonAfter (tf ((getMany (envR j) keys).map (fun r => r.value))).abortCalls,
        (getMany (envR j) keys).map (fun r => r.value)⟩, 1, 0, none⟩ := by
  rw [setSafeAtomicMany_unfold, attempt_aborted (envR j) (envC j) (fresh j) keys tf h]

/-- C6: whenever the callback neither invokes `abort` nor returns an array
of values, the call throws "updateValues must return an array of values to
update" on that very attempt, performs no commit round-trip, writes nothing
to the backend, and is never retried (a single read round-trip happens). -/
theorem setSafeAtomicMany_throws_when_no_array_returned [DecidableEq K]
    (envR envC : Nat → KvStore K V) (fresh : Nat → Nat) (j : Nat) (keys : List K)
    (tf : Transform V) (retryCount : Nat)
    (hab : (tf ((getMany (envR j) keys).map (fun r => r.value))).abortCalls = [])
    (hret : (tf ((getMany (envR j) keys).map (fun r => r.value))).ret = none) :
    setSafeAtomicMany envR envC fresh j keys tf retryCount =
      ⟨.error "updateValues must return an array of values to update", 1, 0, none⟩ := by
  rw [setSafeAtomicMany_unfold, attempt_noArray (envR j) (envC j) (fresh j) keys tf hab hret]

/-- C7: whenever the callback returns (without aborting) an array whose
length differs from the number of keys, the call throws "The number of
resuts returned from the update callback must match the number of keys" on
that attempt, performs no commit round-trip, writes nothing to the backend,
and is never retried. -/
theorem setSafeAtomicMany_throws_on_length_mismatch [DecidableEq K]
    (envR envC : Nat → KvStore K V) (fresh : Nat → Nat) (j : Nat) (keys : List K)
    (tf : Transform V) (updatedValues : List (Option V)) (retryCount : Nat)
    (hab : (tf ((getMany (envR j) keys).map (fun r => r.value))).abortCalls = [])
    (hret : (tf ((getMany (envR j) keys).map (fun r => r.value))).ret = some updatedValues)
    (hlen : updatedValues.length ≠ keys.length) :
    setSafeAtomicMany envR envC fresh j keys tf retryCount =
      ⟨.error "The number of resuts returned from the update callback must match the number of keys",
       1, 0, none⟩ := by
  rw [setSafeAtomicMany_unfold,
    attempt_wrongLength (envR j) (envC j) (fresh j) keys tf updatedValues hab hret hlen]

/-- C3: when the commit of an attempt fails a version check while the
remaining retry budget is 0, the call terminates with
`ok = false`, error "Failed to commit transaction", and the values read at
the start of that final attempt (not the output of the callback). -/
theorem setSafeAtomicMany_exhausted_reports_originals [DecidableEq K]
    (envR envC : Nat → KvStore K V) (fresh : Nat → Nat) (j : Nat) (keys : List K)
    (tf : Transform V) (updatedValues : List (Option V))
    (hab : (tf ((getMany (envR j) keys).map (fun r => r.value))).abortCalls = [])
    (hret : (tf ((getMany (envR j) keys).map (fun r => r.value))).ret = some updatedValues)
    (hlen : updatedValues.length = keys.length)
    (hfail : ¬ ∀ e ∈ getMany (envR j) keys, versionstampOf (envC j) e.key = e.versionstamp) :
    setSafeAtomicMany envR envC fresh j keys tf 0 =
      ⟨.ok ⟨false, some "Failed to commit transaction",
        (getMany (envR j) keys).map (fun r => r.value)⟩, 1, 1, none⟩ := by
  rw [setSafeAtomicMany_unfold,
    attempt_conflict (envR j) (envC j) (fresh j) keys tf updatedValues hab hret hlen hfail]

/-- C5: a `setSafeAtomicMany` call that omits the `retryCount` argument
runs with a retry budget of exactly 10, the declared default. -/
theorem setSafeAtomicMany_default_retryCount_is_ten [DecidableEq K]
    (envR envC : Nat → KvStore K V) (fresh : Nat → Nat) (j : Nat) (keys : List K)
    (tf : Transform V) :
    setSafeAtomicManyOmittingRetryCount envR envC fresh j keys tf =
      setSafeAtomicMany envR envC fresh j keys tf 10 := rfl

/-- C1: for a batch of keys and a same-length array of new values returned
by the callback without aborting, the call builds one transaction that, for
each index i, checks that the backend entry for the i-th key still has the
versionstamp observed at the read and sets that key to the i-th new value,
committed as one indivisible operation: if every per-key check passes
against the commit-time store, the call succeeds at once with exactly one
commit round-trip and the committed store holds, at every key of the batch,
its new value; if some check fails, the boolean outcome alone routes the
call to exhaustion (budget 0) or to a fresh retry (budget m + 1) with
nothing written. -/
theorem setSafeAtomicMany_builds_single_check_and_set_transaction [DecidableEq K]
    (envR envC : Nat → KvStore K V) (fresh : Nat → Nat) (j : Nat) (keys : List K)
    (tf : Transform V) (newValues : List (Option V)) (retryCount : Nat)
    (hab : (tf ((getMany (envR j) keys).map (fun r => r.value))).abortCalls = [])
    (hret : (tf ((getMany (envR j) keys).map (fun r => r.value))).ret = some newValues)
    (hlen : newValues.length = keys.length) (hnd : keys.Nodup) :
    ((∀ e ∈ getMany (envR j) keys, versionstampOf (envC j) e.key = e.versionstamp) →
      ∃ st : KvStore K V,
        setSafeAtomicMany envR envC fresh j keys tf retryCount =
          ⟨.ok ⟨true, none, newValues⟩, 1, 1, some st⟩ ∧
        ∀ p ∈ (getMany (envR j) keys).zip newValues, st p.1.key = some (p.2, fresh j)) ∧
    ((¬ ∀ e ∈ getMany (envR j) keys, versionstampOf (envC j) e.key = e.versionstamp) →
      setSafeAtomicMany envR envC fresh j keys tf 0 =
        ⟨.ok ⟨false, some "Failed to commit transaction",
          (getMany (envR j) keys).map (fun r => r.value)⟩, 1, 1, none⟩ ∧
      ∀ m, setSafeAtomicMany envR envC fresh j keys tf (m + 1) =
        ⟨(setSafeAtomicMany envR envC fresh (j + 1) keys tf m).result,
         (setSafeAtomicMany envR envC fresh (j + 1) keys tf m).reads + 1,
         (setSafeAtomicMany envR envC fresh (j + 1) keys tf m).commitAttempts + 1,
         (setSafeAtomicMany envR envC fresh (j + 1) keys tf m).committedStore⟩) := by
  have hfst : ((getMany (envR j) keys).zip newValues).map Prod.fst = getMany (envR j) keys :=
    List.map_fst_zip _ _ (by rw [getMany_length, hlen])
  constructor
  · intro hpass
    refine ⟨(attemptTx (getMany (envR j) keys) newValues).sets.foldl
      (fun s c => fun k => if k = c.1 then some (c.2, fresh j) else s k) (envC j), ?_, ?_⟩
    · rw [setSafeAtomicMany_unfold,
        attempt_committed (envR j) (envC j) (fresh j) keys tf newValues hab hret hlen hpass]
    · intro p hp
      apply foldl_write_mem
      · rw [attemptTx_sets]
        have hkeys : ((((getMany (envR j) keys).zip newValues).map
            (fun p => (p.1.key, p.2))).map Prod.fst) = keys := by
          rw [List.map_map,
            show (Prod.fst ∘ fun p : KvEntryMaybe K V × Option V => (p.1.key, p.2))
              = (fun e : KvEntryMaybe K V => e.key) ∘ Prod.fst from rfl,
            ← List.map_map, hfst, getMany_map_key]
        rw [hkeys]
        exact hnd
      · rw [attemptTx_sets]
        exact List.mem_map_of_mem _ hp
  · intro hfail
    have hconf := attempt_conflict (envR j) (envC j) (fresh j) keys tf newValues hab hret hlen hfail
    constructor
    · rw [setSafeAtomicMany_unfold, hconf]
    · intro m
      rw [setSafeAtomicMany_unfold, hconf]

/-- C4: for every non-negative retry budget, the budget is decremented once
per failed commit attempt, so the call performs at most retryCount + 1 read
round-trips and at most retryCount + 1 commit round-trips (and never more
commits than reads) before terminating. -/
theorem setSafeAtomicMany_retry_budget_bounds [DecidableEq K]
    (envR envC : Nat → KvStore K V) (fresh : Nat → Nat) (keys : List K) (tf : Transform V) :
    ∀ (retryCount j : Nat),
      (setSafeAtomicMany envR envC fresh j keys tf retryCount).reads ≤ retryCount + 1 ∧
      (setSafeAtomicMany envR envC fresh j keys tf retryCount).commitAttempts ≤ retryCount + 1 ∧
      (setSafeAtomicMany envR envC fresh j keys tf retryCount).commitAttempts ≤
        (setSafeAtomicMany envR envC fresh j keys tf retryCount).reads := by
  intro retryCount
  induction retryCount with
  | zero =>
    intro j
    rw [setSafeAtomicMany_unfold]
    cases setSafeAtomicAttempt (envR j) (envC j) (fresh j) keys tf <;> simp
  | succ m ih =>
    intro j
    rw [setSafeAtomicMany_unfold]
    cases setSafeAtomicAttempt (envR j) (envC j) (fresh j) keys tf <;> simp
    obtain ⟨h1, h2, h3⟩ := ih (j + 1)
    refine ⟨?_, ?_, ?_⟩ <;> omega

/-- C8 (amended): whenever the callback invokes `abort` more than once on
an attempt, the attempt is marked aborted and the reported error is the
last truthy (non-empty) reason supplied among those calls; calls supplying
no reason or the empty string leave the previous reason in place. -/
theorem setSafeAtomicMany_abort_last_truthy_reason_wins [DecidableEq K]
    (envR envC : Nat → KvStore K V) (fresh : Nat → Nat) (j : Nat) (keys : List K)
    (tf : Transform V) (retryCount : Nat)
    (h2 : 2 ≤ (tf ((getMany (envR j) keys).map (fun r => r.value))).abortCalls.length) :
    setSafeAtomicMany envR envC fresh j keys tf retryCount =
      ⟨.ok ⟨false,
        lastTruthyReason (tf ((getMany (envR j) keys).map (fun r => r.value))).abortCalls,
        (getMany (envR j) keys).map (fun r => r.value)⟩, 1, 0, none⟩ := by
  have hne : (tf ((getMany (envR j) keys).map (fun r => r.value))).abortCalls ≠ [] := by
    intro he
    rw [he] at h2
    simp at h2
  rw [setSafeAtomicMany_unfold, attempt_aborted (envR j) (envC j) (fresh j) keys tf hne,
    abortReasonAfter_eq_lastTruthyReason]

/-- C9: `setSafeAtomic(key, fn, budget)` is exactly the single-key
unwrapping of `setSafeAtomicMany([key], wrapSingle fn, budget)`: the two
definitions agree, and the ok and error of the single response are the fields of
the multi-key result with the value being `values[0]`, with identical read
and commit round-trips and identical durable writes. -/
theorem setSafeAtomic_refines_setSafeAtomicMany [DecidableEq K]
    (envR envC : Nat → KvStore K V) (fresh : Nat → Nat) (j : Nat) (key : K)
    (updateValue : SingleTransform V) (retryCount : Nat) :
    setSafeAtomic envR envC fresh j key updateValue retryCount =
      setSafeAtomicViaMany envR envC fresh j key updateValue retryCount ∧
    (setSafeAtomic envR envC fresh j key updateValue retryCount).result =
      (setSafeAtomicMany envR envC fresh j [key] (wrapSingle updateValue) retryCount).result.map
        (fun resp => ⟨resp.ok, resp.error, resp.values.headD none⟩) ∧
    (setSafeAtomic envR envC fresh j key updateValue retryCount).reads =
      (setSafeAtomicMany envR envC fresh j [key] (wrapSingle updateValue) retryCount).reads ∧
    (setSafeAtomic envR envC fresh j key updateValue retryCount).commitAttempts =
      (setSafeAtomicMany envR envC fresh j [key] (wrapSingle updateValue) retryCount).commitAttempts ∧
    (setSafeAtomic envR envC fresh j key updateValue retryCount).committedStore =
      (setSafeAtomicMany envR envC fresh j [key] (wrapSingle updateValue) retryCount).committedStore :=
  ⟨rfl, rfl, rfl, rfl, rfl⟩

/-! ### Helpers for the clone claim -/

theorem attempt_originals_eq [DecidableEq K] (storeR storeC : KvStore K V) (fresh : Nat)
    (keys : List K) (tf : Transform V) (reason : Option String) (o : List (Option V))
    (h : setSafeAtomicAttempt storeR storeC fresh keys tf = .aborted reason o ∨
      setSafeAtomicAttempt storeR storeC fresh keys tf = .conflict o) :
    o = (getMany storeR keys).map (fun r => r.value) := by
  rcases h with h | h <;>
  · simp only [setSafeAtomicAttempt] at h
    split at h
    · first
        | (injection h with h1 h2; exact h2.symm)
        | cases h
    · split at h
      · cases h
      · split at h
        · cases h
        · split at h
          · cases h
          · first
              | (injection h with h1; exact h1.symm)
              | cases h

theorem run_overrideFinalValues [DecidableEq K] (envR envC : Nat → KvStore K V)
    (fresh : Nat → Nat) (keys : List K) (tf : Transform V) (mutated : List (Option V)) :
    ∀ (retryCount j : Nat),
      setSafeAtomicMany envR envC fresh j keys (overrideFinalValues tf mutated) retryCount =
        setSafeAtomicMany envR envC fresh j keys tf retryCount := by
  have hattempt : ∀ (storeR storeC : KvStore K V) (f : Nat),
      setSafeAtomicAttempt storeR storeC f keys (overrideFinalValues tf mutated) =
        setSafeAtomicAttempt storeR storeC f keys tf := fun _ _ _ => rfl
  intro retryCount
  induction retryCount with
  | zero =>
    intro j
    rw [setSafeAtomicMany_unfold, setSafeAtomicMany_unfold, hattempt]
  | succ m ih =>
    intro j
    rw [setSafeAtomicMany_unfold, setSafeAtomicMany_unfold, hattempt]
    cases setSafeAtomicAttempt (envR j) (envC j) (fresh j) keys tf <;> simp [ih (j + 1)]

theorem result_ok_false_values_from_read [DecidableEq K] (envR envC : Nat → KvStore K V)
    (fresh : Nat → Nat) (keys : List K) (tf : Transform V) :
    ∀ (retryCount j : Nat) (resp : SafeAtomicManyResponse V),
      (setSafeAtomicMany envR envC fresh j keys tf retryCount).result = .ok resp →
      resp.ok = false →
      ∃ k, k ≤ retryCount ∧
        resp.values = (getMany (envR (j + k)) keys).map (fun r => r.value) := by
  intro retryCount
  induction retryCount with
  | zero =>
    intro j resp hresp hok
    rw [setSafeAtomicMany_unfold] at hresp
    cases hA : setSafeAtomicAttempt (envR j) (envC j) (fresh j) keys tf with
    | aborted r o =>
      rw [hA] at hresp
      injection hresp with h1
      refine ⟨0, Nat.le_refl 0, ?_⟩
      rw [← h1]
      simpa using attempt_originals_eq (envR j) (envC j) (fresh j) keys tf r o (Or.inl hA)
    | invalidReturn msg =>
      rw [hA] at hresp
      simp at hresp
    | committed nv ns =>
      rw [hA] at hresp
      injection hresp with h1
      rw [← h1] at hok
      simp at hok
    | conflict o =>
      rw [hA] at hresp
      injection hresp with h1
      refine ⟨0, Nat.le_refl 0, ?_⟩
      rw [← h1]
      simpa using attempt_originals_eq (envR j) (envC j) (fresh j) keys tf none o (Or.inr hA)
  | succ m ih =>
    intro j resp hresp hok
    rw [setSafeAtomicMany_unfold] at hresp
    cases hA : setSafeAtomicAttempt (envR j) (envC j) (fresh j) keys tf with
    | aborted r o =>
      rw [hA] at hresp
      injection hresp with h1
      refine ⟨0, Nat.zero_le _, ?_⟩
      rw [← h1]
      simpa using attempt_originals_eq (envR j) (envC j) (fresh j) keys tf r o (Or.inl hA)
    | invalidReturn msg =>
      rw [hA] at hresp
      simp at hresp
    | committed nv ns =>
      rw [hA] at hresp
      injection hresp with h1
      rw [← h1] at hok
      simp at hok
    | conflict o =>
      rw [hA] at hresp
      obtain ⟨k, hk, hv⟩ := ih (j + 1) resp hresp hok
      refine ⟨k + 1, by omega, ?_⟩
      rw [show j + (k + 1) = j + 1 + k from by omega]
      exact hv

/-- C10: the values read on an attempt are deep-cloned before the callback
runs, so the whole run result is unaffected by any in-place mutation the
callback makes to the values array it was passed, and every `ok = false`
response (abort or exhaustion) reports the values as read from the backend
at the start of some attempt, not the mutated ones. -/
theorem setSafeAtomicMany_clone_shields_reported_values [DecidableEq K]
    (envR envC : Nat → KvStore K V) (fresh : Nat → Nat) (keys : List K)
    (tf : Transform V) (mutated : List (Option V)) :
    ∀ (retryCount j : Nat),
      setSafeAtomicMany envR envC fresh j keys (overrideFinalValues tf mutated) retryCount =
        setSafeAtomicMany envR envC fresh j keys tf retryCount ∧
      ∀ resp : SafeAtomicManyResponse V,
        (setSafeAtomicMany envR envC fresh j keys tf retryCount).result = .ok resp →
        resp.ok = false →
        ∃ k, k ≤ retryCount ∧
          resp.values = (getMany (envR (j + k)) keys).map (fun r => r.value) :=
  fun retryCount j =>
    ⟨run_overrideFinalValues envR envC fresh keys tf mutated retryCount j,
     fun resp h1 h2 =>
       result_ok_false_values_from_read envR envC fresh keys tf retryCount j resp h1 h2⟩

/-- C8 does not hold as stated: with the abort calls
`abort("x"); abort("")`, the last reason supplied is the empty string, yet
the reported error is "x", because `if (reason)` treats the empty string as
falsy and keeps the previous reason. -/
theorem abort_empty_reason_cex :
    (setSafeAtomicMany (V := Nat) (fun _ => fun _ => none) (fun _ => fun _ => none)
        (fun _ => 0) 0 ([0] : List Nat)
        (fun _ => ⟨[some "x", some ""], some [none], [none]⟩) 10).result =
      Except.ok ⟨false, some "x", [none]⟩ ∧
    lastSuppliedReason [some "x", some ""] = some "" ∧
    (some "x" : Option String) ≠ some "" := by
  refine ⟨rfl, rfl, by simp⟩

/-! ### Concrete instances for the witnesses -/

/-- A concrete store: key 0 holds value 10 at versionstamp 3, every other
key is absent. -/
def tstore : KvStore Nat Nat := fun k => if k = 0 then some (some 10, 3) else none

/-- The same store after a concurrent writer bumped key 0. -/
def tstoreBumped : KvStore Nat Nat := fun k => if k = 0 then some (some 11, 4) else none

theorem setSafeAtomicMany_abort_reports_originals_without_commit_witness :
    setSafeAtomicMany (fun _ => tstore) (fun _ => tstore) (fun _ => 99) 0 [0]
        (fun _ => ⟨[some "no"], some [some 20], []⟩) 10 =
      ⟨.ok ⟨false, some "no", [some 10]⟩, 1, 0, none⟩ :=
  setSafeAtomicMany_abort_reports_originals_without_commit
    (fun _ => tstore) (fun _ => tstore) (fun _ => 99) 0 [0]
    (fun _ => ⟨[some "no"], some [some 20], []⟩) 10 (by decide)

theorem setSafeAtomicMany_throws_when_no_array_returned_witness :
    setSafeAtomicMany (fun _ => tstore) (fun _ => tstore) (fun _ => 99) 0 [0]
        (fun _ => (⟨[], none, []⟩ : TransformEffect Nat)) 10 =
      ⟨.error "updateValues must return an array of values to update", 1, 0, none⟩ :=
  setSafeAtomicMany_throws_when_no_array_returned
    (fun _ => tstore) (fun _ => tstore) (fun _ => 99) 0 [0]
    (fun _ => ⟨[], none, []⟩) 10 rfl rfl

theorem setSafeAtomicMany_throws_on_length_mismatch_witness :
    setSafeAtomicMany (fun _ => tstore) (fun _ => tstore) (fun _ => 99) 0 [0, 1]
        (fun _ => ⟨[], some [some 20], []⟩) 10 =
      ⟨.error "The number of resuts returned from the update callback must match the number of keys",
       1, 0, none⟩ :=
  setSafeAtomicMany_throws_on_length_mismatch
    (fun _ => tstore) (fun _ => tstore) (fun _ => 99) 0 [0, 1]
    (fun _ => ⟨[], some [some 20], []⟩) [some 20] 10 rfl rfl (by decide)

theorem setSafeAtomicMany_exhausted_reports_originals_witness :
    setSafeAtomicMany (fun _ => tstore) (fun _ => tstoreBumped) (fun _ => 99) 0 [0]
        (fun _ => ⟨[], some [some 20], []⟩) 0 =
      ⟨.ok ⟨false, some "Failed to commit transaction", [some 10]⟩, 1, 1, none⟩ :=
  setSafeAtomicMany_exhausted_reports_originals
    (fun _ => tstore) (fun _ => tstoreBumped) (fun _ => 99) 0 [0]
    (fun _ => ⟨[], some [some 20], []⟩) [some 20] rfl rfl (by decide) (by decide)

theorem setSafeAtomicMany_builds_single_check_and_set_transaction_witness :
    ∃ st : KvStore Nat Nat,
      setSafeAtomicMany (fun _ => tstore) (fun _ => tstore) (fun _ => 99) 0 [0, 1]
          (fun _ => ⟨[], some [some 20, some 30], []⟩) 10 =
        ⟨.ok ⟨true, none, [some 20, some 30]⟩, 1, 1, some st⟩ ∧
      ∀ p ∈ (getMany tstore [0, 1]).zip [some 20, some 30], st p.1.key = some (p.2, 99) :=
  (setSafeAtomicMany_builds_single_check_and_set_transaction
    (fun _ => tstore) (fun _ => tstore) (fun _ => 99) 0 [0, 1]
    (fun _ => ⟨[], some [some 20, some 30], []⟩) [some 20, some 30] 10
    rfl rfl (by decide) (by decide)).1 (by decide)

theorem setSafeAtomicMany_abort_last_truthy_reason_wins_witness :
    setSafeAtomicMany (fun _ => tstore) (fun _ => tstore) (fun _ => 99) 0 [0]
        (fun _ => ⟨[some "a", none, some "b", some ""], some [some 20], []⟩) 10 =
      ⟨.ok ⟨false, some "b", [some 10]⟩, 1, 0, none⟩ :=
  setSafeAtomicMany_abort_last_truthy_reason_wins
    (fun _ => tstore) (fun _ => tstore) (fun _ => 99) 0 [0]
    (fun _ => ⟨[some "a", none, some "b", some ""], some [some 20], []⟩) 10 (by decide)

theorem setSafeAtomicMany_clone_shields_reported_values_witness :
    (setSafeAtomicMany (fun _ => tstore) (fun _ => tstore) (fun _ => 99) 0 [0]
        (overrideFinalValues (fun _ => ⟨[some "no"], some [some 20], []⟩) [some 999]) 10 =
      setSafeAtomicMany (fun _ => tstore) (fun _ => tstore) (fun _ => 99) 0 [0]
        (fun _ => ⟨[some "no"], some [some 20], []⟩) 10) ∧
    ∃ k, k ≤ 10 ∧ ([some 10] : List (Option Nat)) =
      (getMany tstore [0]).map (fun r => r.value) :=
  ⟨(setSafeAtomicMany_clone_shields_reported_values
      (fun _ => tstore) (fun _ => tstore) (fun _ => 99) [0]
      (fun _ => ⟨[some "no"], some [some 20], []⟩) [some 999] 10 0).1,
   (setSafeAtomicMany_clone_shields_reported_values
      (fun _ => tstore) (fun _ => tstore) (fun _ => 99) [0]
      (fun _ => ⟨[some "no"], some [some 20], []⟩) [some 999] 10 0).2
     ⟨false, some "no", [some 10]⟩ rfl rfl⟩

end DenoKvPlus
